import Mathlib

/-
Verification of the session-orchestration layer of the hsk-flashcards client.

The TypeScript source is shallowly embedded: React state is modelled as
explicit records, each handler as a pure state-transition function, and each
network call as an explicit parameter recording whether that call succeeded.
JavaScript numbers that can go negative are modelled as Int; array indices and
sizes as Nat.  `Map` objects are modelled as association lists in insertion
order, `Set` objects as lists of keys.
-/

namespace HskFlashcards

/-! ## Data model (src/unnamed/part_006, src/types.ts) -/

/-- One form of a character: its traditional writing and English meanings
(`CharacterForm` in types.ts; only the fields the orchestration reads). -/
structure CharacterForm where
  traditional : String
  meanings : List String
deriving DecidableEq

/-- A vocabulary entity (`Character` in types.ts; only the fields read by the
session layer). -/
structure Character where
  simplified : String
  level : List String
  forms : List CharacterForm
deriving DecidableEq

/-- `generateCardId` from reviewService (src/unnamed/part_004 lines 132-139):
`${character.level[0]}_${charDisplay}` where the display form follows the
active character set.  JavaScript renders `level[0]` of an empty array as
"undefined"; `forms[0]` of an empty list is modelled by a default form. -/
def generateCardId (c : Character) (characterSet : String) : String :=
  let charDisplay :=
    if characterSet = "simplified" then c.simplified
    else (c.forms.headD { traditional := "", meanings := [] }).traditional
  (c.level.headD "undefined") ++ "_" ++ charDisplay

/-- `formatDeckId` from progressStatsService (lines 303-306): the identity. -/
def formatDeckId (level : String) : String := level

/-! ## Media (image) cache (src/unnamed/part_005)

The blob-URL cache is a JavaScript `Map` whose iteration order is insertion
order; keys are only inserted when absent (a cache hit returns early before
any `set`), so iteration order is oldest-first.  We model it as a list of
(key, url) pairs, oldest first. -/

/-- `MAX_CACHE_SIZE` (part_005 line 14). -/
def MAX_CACHE_SIZE : Nat := 50

/-- `Math.floor(MAX_CACHE_SIZE * 0.3)` (part_005 line 19): with IEEE doubles
`50 * 0.3` rounds to exactly 15.0, so 15 entries are removed. -/
def entriesToRemove : Nat := 15

/-- `cleanImageCache` (part_005 lines 17-31): once the size threshold is hit,
remove the first (oldest) `entriesToRemove` entries. -/
def cleanImageCache (cache : List (String × String)) : List (String × String) :=
  if MAX_CACHE_SIZE ≤ cache.length then cache.drop entriesToRemove else cache

/-- The cache mutation performed by a successful `getCardImage` fetch
(part_005 lines 79-89 and 136-143): on a cache hit the function returns
before any insertion; on a miss it runs `cleanImageCache()` synchronously and
then inserts the new entry at the end (newest position). -/
def cacheInsert (cache : List (String × String)) (key url : String) :
    List (String × String) :=
  if cache.any (fun e => e.1 = key) then cache
  else cleanImageCache cache ++ [(key, url)]

/-- Folding a whole sequence of successful image fetches over the cache. -/
def runCacheInserts (cache : List (String × String))
    (ops : List (String × String)) : List (String × String) :=
  ops.foldl (fun c p => cacheInsert c p.1 p.2) cache

/-! ## Service health probes (C7)

Each probe is modelled as a total function from the observable outcome of its
HTTP request to the boolean it returns; totality is the no-exception
guarantee.  The explicit request timeout each probe installs (via
`AbortController` + `setTimeout`) is recorded separately, from the code. -/

/-- Observable outcome of a health-probe request: an HTTP success carrying the
JSON `status` field, a non-success HTTP status, a connection failure, or an
abort/timeout. -/
inductive ProbeOutcome where
  | ok (bodyStatus : String)
  | httpError (code : Nat)
  | connectionFailure
  | timedOut
deriving DecidableEq

/-- `checkReviewServiceHealth` (src/unnamed/part_004 lines 122-130): returns
`response.ok`; any thrown error is caught and yields false. -/
def checkReviewServiceHealth : ProbeOutcome → Bool
  | .ok _ => true
  | .httpError _ => false
  | .connectionFailure => false
  | .timedOut => false

/-- `checkAudioServiceHealth` (audioService lines 124-154): on HTTP success
returns `data.status === 'healthy'`; non-ok status, abort, or any error
yields false. -/
def checkAudioServiceHealth : ProbeOutcome → Bool
  | .ok s => s = "healthy"
  | .httpError _ => false
  | .connectionFailure => false
  | .timedOut => false

/-- `checkImageServiceHealth` (src/unnamed/part_005 lines 34-59): same shape
as the audio probe. -/
def checkImageServiceHealth : ProbeOutcome → Bool
  | .ok s => s = "healthy"
  | .httpError _ => false
  | .connectionFailure => false
  | .timedOut => false

/-- `checkProgressStatsServiceHealth` (progressStatsService lines 270-300):
same shape as the audio probe. -/
def checkProgressStatsServiceHealth : ProbeOutcome → Bool
  | .ok s => s = "healthy"
  | .httpError _ => false
  | .connectionFailure => false
  | .timedOut => false

/-- The explicit request timeout, in milliseconds, that the review-service
probe installs: part_004 lines 122-130 issue a bare `fetch` with no
`AbortController` and no `setTimeout`, so there is none. -/
def reviewHealthTimeoutMs : Option Nat := none

/-- The audio probe installs a 5000 ms abort timer (audioService line 127). -/
def audioHealthTimeoutMs : Option Nat := some 5000

/-- The image probe installs a 5000 ms abort timer (part_005 line 37). -/
def imageHealthTimeoutMs : Option Nat := some 5000

/-- The progress probe installs a 5000 ms abort timer (progressStatsService
line 273). -/
def progressHealthTimeoutMs : Option Nat := some 5000

/-- The four collaborator probes with their installed timeouts. -/
def healthProbeTimeouts : List (Option Nat) :=
  [reviewHealthTimeoutMs, audioHealthTimeoutMs, imageHealthTimeoutMs,
    progressHealthTimeoutMs]

/-! ## Session composer (FlashcardSession.tsx `loadData`, lines 344-451)

The two `[...]​.sort(() => 0.5 - Math.random())` shuffles are nondeterministic
permutations; each is modelled by an explicit list parameter constrained in
the theorems to be a permutation of the list the code shuffles. -/

/-- A due card as returned by the Review Service (`DueCard`, part_004 lines
26-28); only the identity matters to the composer. -/
structure DueCard where
  cardId : String
deriving DecidableEq

/-- A queue entry (`StudyCard`, FlashcardSession lines 278-284; the optional
`dueCard` payload is dropped as no verified code reads it). -/
structure StudyCard where
  character : Character
  cardId : String
  isDue : Bool
  isNew : Bool
deriving DecidableEq

/-- Character-level model of the JS `String.prototype.startsWith` test. -/
def charsStartWith : List Char → List Char → Bool
  | _, [] => true
  | [], _ :: _ => false
  | c :: cs, p :: ps => c = p && charsStartWith cs ps

/-- `s.startsWith(pat)` over the underlying character lists. -/
def strStartsWith (s pat : String) : Bool :=
  charsStartWith s.data pat.data

/-- Character-level model of JS `String.prototype.split` with a one-character
separator ([] is unreachable: the recursion always yields a nonempty list).
-/
def splitOnChar (sep : Char) : List Char → List (List Char)
  | [] => [[]]
  | c :: cs =>
      match splitOnChar sep cs with
      | [] => [[c]]
      | r :: rs => if c = sep then [] :: r :: rs else (c :: r) :: rs

/-- `cardId.split('_')` over the underlying character lists. -/
def strSplitUnderscore (s : String) : List String :=
  (splitOnChar '_' s.data).map (fun cs => String.mk cs)

/-- Due cards filtered to the requested level (lines 363-365):
`dueCard.cardId.startsWith(formatDeckId(prefs.level) + '_')`. -/
def levelDueCards (dueCards : List DueCard) (level : String) : List DueCard :=
  dueCards.filter (fun d => strStartsWith d.cardId (formatDeckId level ++ "_"))

/-- Whether a vocabulary entity matches the character text extracted from a
due cardId (lines 374-377): `char.simplified === characterText ||
char.forms[0]?.traditional === characterText` (the optional chain on an
empty `forms` compares `undefined`, i.e. is false). -/
def matchesCharacterText (c : Character) (t : String) : Bool :=
  c.simplified = t ||
    (match c.forms with
     | [] => false
     | f :: _ => f.traditional = t)

/-- Resolving one due card back to a vocabulary entity (lines 370-389): split
the cardId on `_`, require at least two parts, look up the first entity whose
display form equals part 1; unresolvable identities are skipped. -/
def resolveDueCard (filtered : List Character) (d : DueCard) :
    Option StudyCard :=
  let cardIdParts := strSplitUnderscore d.cardId
  if 1 < cardIdParts.length then
    let characterText := cardIdParts.getD 1 ""
    match filtered.find? (fun c => matchesCharacterText c characterText) with
    | some character =>
        some { character := character, cardId := d.cardId, isDue := true,
               isNew := false }
    | none => none
  else none

/-- The due-card portion of the queue: every level-matching due card that
resolves to an entity, in due-list order (lines 370-389). -/
def dueStudyCards (filtered : List Character) (dueCards : List DueCard)
    (level : String) : List StudyCard :=
  (levelDueCards dueCards level).filterMap (resolveDueCard filtered)

/-- Entities eligible as new cards (lines 397-401): those whose generated id
is not among the due cards already selected. -/
def newCharactersFor (filtered : List Character) (dueStudy : List StudyCard)
    (characterSet : String) : List Character :=
  filtered.filter
    (fun c => !((dueStudy.map (fun sc => sc.cardId)).contains
      (generateCardId c characterSet)))

/-- Wrapping an entity as a new study card (lines 407-415 and 425-430,
438-443). -/
def newStudyCard (characterSet : String) (c : Character) : StudyCard :=
  { character := c, cardId := generateCardId c characterSet, isDue := false,
    isNew := true }

/-- The SRS-path queue (lines 356-417): all resolved due cards, followed by
`max(0, cardCount - dueCount)` new cards taken from the shuffled eligible
entities (Nat subtraction is exactly the `Math.max(0, ...)`).
`shuffledNew` stands for the shuffle of `newCharactersFor ...`. -/
def buildQueueSRS (filtered : List Character) (dueCards : List DueCard)
    (level characterSet : String) (cardCount : Nat)
    (shuffledNew : List Character) : List StudyCard :=
  let dueStudy := dueStudyCards filtered dueCards level
  dueStudy ++
    (shuffledNew.take (cardCount - dueStudy.length)).map
      (newStudyCard characterSet)

/-- The random-path queue (lines 421-430 and 434-443):
`shuffled.slice(0, Math.min(cardCount, filteredCharacters.length))` mapped to
new study cards.  `shuffled` stands for the shuffle of `filtered`. -/
def buildQueueRandom (filtered : List Character) (characterSet : String)
    (cardCount : Nat) (shuffled : List Character) : List StudyCard :=
  (shuffled.take (min cardCount filtered.length)).map
    (newStudyCard characterSet)

/-- Outcome of the `getDueCards()` call (lines 359-360): the response, or a
thrown error caught at line 418. -/
inductive DueFetchResult where
  | ok (dueCards : List DueCard)
  | failed
deriving DecidableEq

/-- The queue produced by `loadData` (lines 354-444): the SRS path runs only
when the review service is connected and SRS mode is on and the due fetch
succeeds; a failed fetch falls back to the random path silently (line 418
catches and logs), as does scheduling being unavailable. -/
def loadDataQueue (reviewServiceConnected useSRS : Bool)
    (filtered : List Character) (level characterSet : String) (cardCount : Nat)
    (dueFetch : DueFetchResult) (shuffledNew shuffledAll : List Character) :
    List StudyCard :=
  if reviewServiceConnected && useSRS then
    match dueFetch with
    | .ok dueCards =>
        buildQueueSRS filtered dueCards level characterSet cardCount
          shuffledNew
    | .failed => buildQueueRandom filtered characterSet cardCount shuffledAll
  else buildQueueRandom filtered characterSet cardCount shuffledAll

/-- `prefs.cardCount || 20` (lines 392, 422, 435): a zero (falsy) stored
count falls back to 20. -/
def effectiveCardCount (stored : Nat) : Nat :=
  if stored = 0 then 20 else stored

/-! ## Grading coordinator (FlashcardSession.tsx `handleCardGraded`,
lines 523-622, and Flashcard.tsx `handleGrade`, lines 150-191)

`gradedCards` and `sessionCardResults` are JavaScript `Map`/array values
modelled as association lists; `gradedCardsInServices` is a `Set` of
`cardId_isCorrect` keys modelled as a list.  Counters are `Int` because a
changed grade on a card pre-populated from review history can drive a
JavaScript counter below zero. -/

/-- Lookup in a modelled `Map` (`Map.prototype.get`). -/
def mapGet (m : List (String × Bool)) (k : String) : Option Bool :=
  (m.find? (fun e => e.1 = k)).map (fun e => e.2)

/-- Update in a modelled `Map` (`Map.prototype.set`): replace in place when
the key exists, otherwise append at the newest position. -/
def mapSet (m : List (String × Bool)) (k : String) (v : Bool) :
    List (String × Bool) :=
  if m.any (fun e => e.1 = k) then
    m.map (fun e => if e.1 = k then (k, v) else e)
  else m ++ [(k, v)]

/-- `sessionCardResults` update (lines 538-545): replace the entry for the
cardId when present, otherwise append. -/
def resultsUpsert (rs : List (String × Bool)) (k : String) (v : Bool) :
    List (String × Bool) :=
  if rs.any (fun e => e.1 = k) then
    rs.map (fun e => if e.1 = k then (k, v) else e)
  else rs ++ [(k, v)]

/-- `SessionStats` (FlashcardSession lines 268-276), without the start
timestamp, which only feeds the duration computation. -/
structure SessionStats where
  totalCards : Nat
  cardsReviewed : Int
  correctCount : Int
  incorrectCount : Int
  newCardsStudied : Int
  reviewCardsStudied : Int
deriving DecidableEq

/-- The mutable session state touched by `handleCardGraded`. -/
structure GradingState where
  gradedCards : List (String × Bool)
  sessionCardResults : List (String × Bool)
  stats : SessionStats
  sentToServices : List String
deriving DecidableEq

/-- The dedup key `` `${cardId}_${isCorrect}` `` (line 568). -/
def serviceCallKey (cardId : String) (isCorrect : Bool) : String :=
  cardId ++ "_" ++ (if isCorrect then "true" else "false")

/-- Result of one `handleCardGraded` invocation: the new state plus whether
the primary write (`gradeCard`) was issued this invocation. -/
structure GradeStepResult where
  state : GradingState
  primaryCallMade : Bool
deriving DecidableEq

/-- The statistics delta of a first-time grade (lines 548-557): one more
reviewed card, the matching correct/incorrect counter, and the new/review
counter matching the card's `isNew` flag. -/
def firstGradeStats (st : SessionStats) (card : StudyCard) (isCorrect : Bool) :
    SessionStats :=
  { st with
    cardsReviewed := st.cardsReviewed + 1
    correctCount := st.correctCount + (if isCorrect then 1 else 0)
    incorrectCount := st.incorrectCount + (if isCorrect then 0 else 1)
    newCardsStudied := st.newCardsStudied + (if card.isNew then 1 else 0)
    reviewCardsStudied := st.reviewCardsStudied + (if card.isNew then 0 else 1)
  }

/-- The statistics delta of a changed grade (lines 558-564): one unit moves
between the correct and incorrect counters; `cardsReviewed` is untouched. -/
def changedGradeStats (st : SessionStats) (isCorrect : Bool) : SessionStats :=
  { st with
    correctCount := st.correctCount + (if isCorrect then 1 else -1)
    incorrectCount := st.incorrectCount + (if isCorrect then -1 else 1) }

/-- `handleCardGraded` (lines 523-622) as a state transition.  `card` is the
current study card (the caller passes `currentStudyCard.cardId`, so the id
graded and the card whose `isNew` feeds the counters coincide).
`reviewServiceConnected` gates the primary write; `primaryWriteOk` is the
outcome of the awaited `gradeCard` call.  The secondary Progress write
(lines 579-608) is fire-and-forget inside its own try/catch and touches no
session state, so it does not appear in the state transition.  On a failed
primary write the catch (lines 610-618) deletes the key just added, so the
sent-set is net unchanged. -/
def handleCardGraded (s : GradingState) (card : StudyCard) (isCorrect : Bool)
    (reviewServiceConnected primaryWriteOk : Bool) : GradeStepResult :=
  let cardId := card.cardId
  let wasGradedBefore := (mapGet s.gradedCards cardId).isSome
  let previousResult := mapGet s.gradedCards cardId
  if wasGradedBefore && previousResult = some isCorrect then
    { state := s, primaryCallMade := false }
  else
    let graded := mapSet s.gradedCards cardId isCorrect
    let results := resultsUpsert s.sessionCardResults cardId isCorrect
    let stats :=
      if !wasGradedBefore then firstGradeStats s.stats card isCorrect
      else changedGradeStats s.stats isCorrect
    let key := serviceCallKey cardId isCorrect
    if reviewServiceConnected && !(s.sentToServices.contains key) then
      if primaryWriteOk then
        { state :=
            { gradedCards := graded, sessionCardResults := results,
              stats := stats, sentToServices := s.sentToServices ++ [key] },
          primaryCallMade := true }
      else
        { state :=
            { gradedCards := graded, sessionCardResults := results,
              stats := stats, sentToServices := s.sentToServices },
          primaryCallMade := true }
    else
      { state :=
          { gradedCards := graded, sessionCardResults := results,
            stats := stats, sentToServices := s.sentToServices },
        primaryCallMade := false }

/-- One user grading action with the network outcome of its primary write. -/
structure GradeEvent where
  card : StudyCard
  isCorrect : Bool
  reviewServiceConnected : Bool
  primaryWriteOk : Bool
deriving DecidableEq

/-- Folding a sequence of grading actions over the session state. -/
def runGrades (s : GradingState) (events : List GradeEvent) : GradingState :=
  events.foldl
    (fun st e =>
      (handleCardGraded st e.card e.isCorrect e.reviewServiceConnected
        e.primaryWriteOk).state) s

/-- The trace of primary-write submissions over a run: one `(key, succeeded)`
entry per invocation that actually issued `gradeCard`. -/
def runGradesTrace (s : GradingState) : List GradeEvent →
    List (String × Bool)
  | [] => []
  | e :: es =>
      let r := handleCardGraded s e.card e.isCorrect e.reviewServiceConnected
        e.primaryWriteOk
      (if r.primaryCallMade then
        [(serviceCallKey e.card.cardId e.isCorrect, e.primaryWriteOk)]
      else []) ++ runGradesTrace r.state es

/-- The session state at mount (lines 306-317, 520): empty maps, zero
counters; `totalCards` is set from the composed queue (lines 447-451) and
`gradedCards` is pre-populated from review history (lines 453-469). -/
def initState (queue : List StudyCard) (prevGraded : List (String × Bool)) :
    GradingState :=
  { gradedCards := prevGraded, sessionCardResults := [],
    stats :=
      { totalCards := queue.length, cardsReviewed := 0, correctCount := 0,
        incorrectCount := 0, newCardsStudied := 0, reviewCardsStudied := 0 },
    sentToServices := [] }

/-- One iteration of the `previouslyGradedMap` loop (lines 453-469): for a
non-new queue card, when the review service is connected and
`getCardProgress` resolves with `totalReviews > 0`, record
`correctReviews > totalReviews / 2` (real division, i.e.
`2 * correctReviews > totalReviews`); a thrown lookup is skipped.
`progressOf` is the per-card `(totalReviews, correctReviews)` oracle,
`none` for a failed lookup. -/
def prevGradedStep (reviewServiceConnected : Bool)
    (progressOf : String → Option (Nat × Nat)) (m : List (String × Bool))
    (sc : StudyCard) : List (String × Bool) :=
  if reviewServiceConnected && !sc.isNew then
    match progressOf sc.cardId with
    | some p =>
        if 0 < p.1 then mapSet m sc.cardId (decide (p.1 < 2 * p.2)) else m
    | none => m
  else m

/-- The whole pre-population loop of lines 453-469. -/
def previouslyGradedMap (queue : List StudyCard)
    (reviewServiceConnected : Bool)
    (progressOf : String → Option (Nat × Nat)) : List (String × Bool) :=
  queue.foldl (prevGradedStep reviewServiceConnected progressOf) []

/-! ## Flashcard-level grading (Flashcard.tsx `handleGrade`, lines 150-191)

`handleGrade` performs the first `gradeCard` write itself and only invokes
`onCardGraded` (the session-level coordinator above) when that write
succeeded; on a thrown write it surfaces the error message in component
state. -/

/-- The Flashcard component state touched by `handleGrade`. -/
structure FlashcardState where
  isGrading : Bool
  hasBeenGraded : Bool
  lastGradingResult : Option Bool
  gradingError : Option String
deriving DecidableEq

/-- The message `gradeCard` rejects with (part_004 line 58), which
`handleGrade` stores via `setGradingError` (Flashcard line 187). -/
def gradeCardFailureMessage : String :=
  "Failed to grade card. Review service may be unavailable."

/-- Combined result of one `handleGrade` invocation. -/
structure CombinedGradeResult where
  fc : FlashcardState
  session : GradingState
  sessionPrimaryCalled : Bool
deriving DecidableEq

/-- `handleGrade` (Flashcard lines 150-191) combined with the session-level
coordinator it notifies.  In-flight and same-choice calls return unchanged;
a failed first write sets `gradingError` and never reaches the session
state; a successful first write records the outcome locally and runs
`handleCardGraded` via `onCardGraded`. -/
def handleGrade (fc : FlashcardState) (s : GradingState) (card : StudyCard)
    (isCorrect : Bool) (cardWriteOk : Bool)
    (reviewServiceConnected sessionWriteOk : Bool) : CombinedGradeResult :=
  if fc.isGrading then
    { fc := fc, session := s, sessionPrimaryCalled := false }
  else if fc.lastGradingResult = some isCorrect then
    { fc := fc, session := s, sessionPrimaryCalled := false }
  else if cardWriteOk then
    let r := handleCardGraded s card isCorrect reviewServiceConnected
      sessionWriteOk
    { fc :=
        { isGrading := false, hasBeenGraded := true,
          lastGradingResult := some isCorrect, gradingError := none },
      session := r.state, sessionPrimaryCalled := r.primaryCallMade }
  else
    let fcFailed :=
      { fc with
        isGrading := false
        gradingError := some gradeCardFailureMessage }
    { fc := fcFailed, session := s, sessionPrimaryCalled := false }

/-- The `(cardId, isCorrect)` pairs one full `handleGrade` invocation
submits to the review service, in order.  Past the in-flight and same-choice
guards, `Flashcard.handleGrade` itself always issues one `gradeCard` call
(Flashcard.tsx line 165, outcome `cardWriteOk`); only when that call
succeeds does `onCardGraded` run `handleCardGraded`, which issues its own
`gradeCard` call for the same pair (FlashcardSession.tsx line 574) unless
disconnection or its sent-marker suppresses it. -/
def handleGradeSubmissions (fc : FlashcardState) (s : GradingState)
    (card : StudyCard) (isCorrect : Bool) (cardWriteOk : Bool)
    (reviewServiceConnected sessionWriteOk : Bool) : List (String × Bool) :=
  if fc.isGrading then []
  else if fc.lastGradingResult = some isCorrect then []
  else if cardWriteOk then
    (card.cardId, isCorrect) ::
      (if (handleCardGraded s card isCorrect reviewServiceConnected
          sessionWriteOk).primaryCallMade then
        [(card.cardId, isCorrect)]
      else [])
  else [(card.cardId, isCorrect)]

/-! ## Session recorder (FlashcardSession.tsx `handleEndSession`,
lines 641-665) -/

/-- The summary submitted to the Progress Service (lines 648-655). -/
structure SessionSummary where
  deckId : String
  cardsStudied : Int
  correctAnswers : Int
  incorrectAnswers : Int
  sessionDuration : Nat
  cardResults : List (String × Bool)
deriving DecidableEq

/-- Result of `handleEndSession`: whether and what it submitted, the
statistics it leaves behind, and that it navigated home. -/
structure EndSessionResult where
  submission : Option SessionSummary
  stats : SessionStats
  navigatedHome : Bool
deriving DecidableEq

/-- `handleEndSession` (lines 641-665): submit one summary exactly when the
progress service is connected and at least one result was recorded; a failed
`recordSession` is caught and logged (line 658) and, like everything else,
is followed by `navigate('/')`.  `submitOk` is the outcome of the awaited
`recordSession` call. -/
def handleEndSession (progressStatsServiceConnected : Bool)
    (sessionCardResults : List (String × Bool)) (stats : SessionStats)
    (level : String) (duration : Nat) (submitOk : Bool) : EndSessionResult :=
  if progressStatsServiceConnected && decide (0 < sessionCardResults.length)
  then
    { submission :=
        some
          { deckId := formatDeckId level, cardsStudied := stats.cardsReviewed,
            correctAnswers := stats.correctCount,
            incorrectAnswers := stats.incorrectCount,
            sessionDuration := duration,
            cardResults := sessionCardResults },
      stats := stats, navigatedHome := true }
  else { submission := none, stats := stats, navigatedHome := true }

/-! ## Navigation (FlashcardSession.tsx `handlePrevious`/`handleNext`,
lines 624-638) -/

/-- The navigation state: current queue index, the backtracking history
stack (pushed at the end, popped from the end), and the summary flag. -/
structure NavState where
  currentIndex : Nat
  history : List Nat
  showSummary : Bool
deriving DecidableEq

/-- A user navigation action. -/
inductive NavAction where
  | next
  | previous
deriving DecidableEq

/-- `handleNext` (lines 631-638) and `handlePrevious` (lines 624-629) over a
queue of length `len`: next on the last card (or past it) only opens the
summary; otherwise it pushes the index and advances.  Previous with empty
history returns unchanged; otherwise it pops and jumps back. -/
def navStep (len : Nat) (s : NavState) : NavAction → NavState
  | .next =>
      if len - 1 ≤ s.currentIndex then { s with showSummary := true }
      else
        { currentIndex := s.currentIndex + 1,
          history := s.history ++ [s.currentIndex],
          showSummary := s.showSummary }
  | .previous =>
      match s.history.getLast? with
      | none => s
      | some prevIndex =>
          { currentIndex := prevIndex, history := s.history.dropLast,
            showSummary := s.showSummary }

/-- Folding a sequence of navigation actions. -/
def runNav (len : Nat) (s : NavState) (actions : List NavAction) : NavState :=
  actions.foldl (navStep len) s

/-- The navigation state at session start (lines 290, 294, 291). -/
def initNavState : NavState :=
  { currentIndex := 0, history := [], showSummary := false }

/-! ## Concrete fixtures for the instance theorems -/

/-- A concrete vocabulary entity. -/
def sampleCharacterA : Character :=
  { simplified := "a", level := ["new-1"],
    forms := [{ traditional := "a", meanings := ["first"] }] }

/-- A second concrete vocabulary entity. -/
def sampleCharacterB : Character :=
  { simplified := "b", level := ["new-1"],
    forms := [{ traditional := "b", meanings := ["second"] }] }

/-- A concrete new study card over `sampleCharacterA`. -/
def sampleCard : StudyCard :=
  { character := sampleCharacterA, cardId := "new-1_a", isDue := false,
    isNew := true }

/-- A concrete grading action: `sampleCard` passes, write succeeds. -/
def sampleEventPass : GradeEvent :=
  { card := sampleCard, isCorrect := true, reviewServiceConnected := true,
    primaryWriteOk := true }

/-- A concrete grading action: `sampleCard` fails, write fails. -/
def sampleEventFail : GradeEvent :=
  { card := sampleCard, isCorrect := false, reviewServiceConnected := true,
    primaryWriteOk := false }

/-- A concrete initial session state over the one-card queue. -/
def sampleInitState : GradingState :=
  initState [sampleCard]
    (previouslyGradedMap [sampleCard] true (fun _ => none))

/-- A concrete idle flashcard component state. -/
def sampleFlashcardState : FlashcardState :=
  { isGrading := false, hasBeenGraded := false, lastGradingResult := none,
    gradingError := none }

/-- A concrete two-entity vocabulary for the requested level. -/
def sampleVocabulary : List Character := [sampleCharacterA, sampleCharacterB]

/-- Two due cards, both of the sample level and both resolvable. -/
def sampleDueCards : List DueCard :=
  [{ cardId := "new-1_a" }, { cardId := "new-1_b" }]

/-- One due card, resolvable to `sampleCharacterA`. -/
def sampleDueCardsOne : List DueCard := [{ cardId := "new-1_a" }]

/-! ## Helper lemmas -/

/-- A single cache mutation never pushes the cache past its bound. -/
theorem cacheInsert_length_le (cache : List (String × String))
    (h : cache.length ≤ MAX_CACHE_SIZE) (k u : String) :
    (cacheInsert cache k u).length ≤ MAX_CACHE_SIZE := by
  unfold cacheInsert cleanImageCache MAX_CACHE_SIZE entriesToRemove at *
  split
  · exact h
  · split <;> simp_all <;> omega

/-- Any run of successful image fetches keeps the cache within its bound. -/
theorem runCacheInserts_length_le (ops : List (String × String)) :
    ∀ cache : List (String × String), cache.length ≤ MAX_CACHE_SIZE →
      (runCacheInserts cache ops).length ≤ MAX_CACHE_SIZE := by
  induction ops with
  | nil => intro cache h; simpa [runCacheInserts] using h
  | cons p ps ih =>
      intro cache h
      simpa [runCacheInserts] using
        ih (cacheInsert cache p.1 p.2) (cacheInsert_length_le cache h p.1 p.2)

/-! ## C9: bounded media cache with oldest-first eviction -/

/-- C9: the image cache is bounded.  (1) Starting from the empty shared
cache, any sequence of successful fetch insertions keeps the cache at or
below `MAX_CACHE_SIZE`.  (2) Once the size threshold is hit, eviction removes
exactly the oldest `entriesToRemove` (~30%) entries: the evicted entries are
the oldest prefix of the cache.  (3) Eviction runs synchronously before the
new entry is appended. -/
theorem c9_cache_bounded_oldest_first :
    (∀ ops : List (String × String),
      (runCacheInserts [] ops).length ≤ MAX_CACHE_SIZE) ∧
    (∀ cache : List (String × String), MAX_CACHE_SIZE ≤ cache.length →
      cache.take entriesToRemove ++ cleanImageCache cache = cache) ∧
    (∀ cache : List (String × String), ∀ k u : String,
      cache.any (fun e => e.1 = k) = false →
      cacheInsert cache k u = cleanImageCache cache ++ [(k, u)]) := by
  refine ⟨fun ops => runCacheInserts_length_le ops [] (by simp),
    fun cache h => ?_, fun cache k u h => ?_⟩
  · simp [cleanImageCache, h]
  · simp [cacheInsert, h]

/-- Witness for C9: the oldest-prefix eviction identity applied at a concrete
full cache, and the bound applied at a concrete insertion sequence. -/
theorem c9_cache_witness :
    (List.replicate 50 (("k", "u") : String × String)).take entriesToRemove ++
        cleanImageCache (List.replicate 50 (("k", "u") : String × String)) =
      List.replicate 50 (("k", "u") : String × String) ∧
    (runCacheInserts [] [("a", "1"), ("b", "2")]).length ≤ MAX_CACHE_SIZE :=
  ⟨c9_cache_bounded_oldest_first.2.1 (List.replicate 50 ("k", "u"))
      (by simp [MAX_CACHE_SIZE]),
    c9_cache_bounded_oldest_first.1 [("a", "1"), ("b", "2")]⟩

/-! ## C7: health probes -/

/-- C7 counterexample: it is not the case that every one of the four
collaborator health probes installs a bounded request timeout of ≈5 s — the
review-service probe (src/unnamed/part_004 lines 122-130) issues a bare
`fetch` with no timeout at all, while the other three install 5000 ms
timers. -/
theorem c7_counterexample :
    ¬ ∀ t ∈ healthProbeTimeouts, ∃ ms, t = some ms ∧ 4000 ≤ ms ∧ ms ≤ 6000 := by
  intro h
  rcases h reviewHealthTimeoutMs (by simp [healthProbeTimeouts]) with
    ⟨ms, hms, -⟩
  simp [reviewHealthTimeoutMs] at hms

/-- C7 amended: the audio, image and progress probes install a 5000 ms abort
timeout while the review probe installs none; every probe is a total
function into Bool (no exception propagates), and a timed-out request, a
connection failure, or a non-success HTTP status evaluates to false on all
four probes. -/
theorem c7_health_probes_amended :
    reviewHealthTimeoutMs = none ∧
    audioHealthTimeoutMs = some 5000 ∧
    imageHealthTimeoutMs = some 5000 ∧
    progressHealthTimeoutMs = some 5000 ∧
    (checkReviewServiceHealth .timedOut = false ∧
      checkReviewServiceHealth .connectionFailure = false ∧
      ∀ code : Nat, checkReviewServiceHealth (.httpError code) = false) ∧
    (checkAudioServiceHealth .timedOut = false ∧
      checkAudioServiceHealth .connectionFailure = false ∧
      ∀ code : Nat, checkAudioServiceHealth (.httpError code) = false) ∧
    (checkImageServiceHealth .timedOut = false ∧
      checkImageServiceHealth .connectionFailure = false ∧
      ∀ code : Nat, checkImageServiceHealth (.httpError code) = false) ∧
    (checkProgressStatsServiceHealth .timedOut = false ∧
      checkProgressStatsServiceHealth .connectionFailure = false ∧
      ∀ code : Nat, checkProgressStatsServiceHealth (.httpError code) = false) :=
  ⟨rfl, rfl, rfl, rfl, ⟨rfl, rfl, fun _ => rfl⟩, ⟨rfl, rfl, fun _ => rfl⟩,
    ⟨rfl, rfl, fun _ => rfl⟩, ⟨rfl, rfl, fun _ => rfl⟩⟩

/-! ## C8: session recorder -/

/-- C8: on session end a summary is submitted exactly when the progress
service is available and at least one outcome was graded; the result carries
the unchanged local statistics and navigation home always happens; the
outcome of the `recordSession` call (including failure) does not change any
of this. -/
theorem c8_end_session_contract (progressStatsServiceConnected : Bool)
    (sessionCardResults : List (String × Bool)) (stats : SessionStats)
    (level : String) (duration : Nat) (submitOk submitOk2 : Bool) :
    handleEndSession progressStatsServiceConnected sessionCardResults stats
        level duration submitOk =
      handleEndSession progressStatsServiceConnected sessionCardResults stats
        level duration submitOk2 ∧
    ((handleEndSession progressStatsServiceConnected sessionCardResults stats
        level duration submitOk).submission.isSome ↔
      (progressStatsServiceConnected = true ∧ sessionCardResults ≠ [])) ∧
    (handleEndSession progressStatsServiceConnected sessionCardResults stats
      level duration submitOk).stats = stats ∧
    (handleEndSession progressStatsServiceConnected sessionCardResults stats
      level duration submitOk).navigatedHome = true := by
  unfold handleEndSession
  refine ⟨rfl, ?_, ?_, ?_⟩ <;> split <;> simp_all [List.length_pos]

/-! ## C10: navigation stays in bounds -/

/-- The navigation invariant: the index is a valid queue position and every
history entry can be advanced from, i.e. was pushed strictly before the last
position. -/
def NavInv (len : Nat) (s : NavState) : Prop :=
  s.currentIndex < len ∧ ∀ i ∈ s.history, i + 1 < len

/-- One navigation action preserves the navigation invariant. -/
theorem navStep_preserves_inv (len : Nat) (s : NavState) (a : NavAction)
    (h : NavInv len s) : NavInv len (navStep len s a) := by
  obtain ⟨h1, h2⟩ := h
  cases a with
  | next =>
      simp only [navStep]
      split
      · exact ⟨h1, h2⟩
      · rename_i hlt
        refine ⟨?_, ?_⟩
        · show s.currentIndex + 1 < len
          omega
        · show ∀ i ∈ s.history ++ [s.currentIndex], i + 1 < len
          intro i hi
          rcases List.mem_append.mp hi with hi | hi
          · exact h2 i hi
          · simp only [List.mem_singleton] at hi
            omega
  | previous =>
      simp only [navStep]
      cases hl : s.history.getLast? with
      | none => exact ⟨h1, h2⟩
      | some prevIndex =>
          have hmem : prevIndex ∈ s.history := by
            rcases List.mem_getLast?_eq_getLast (l := s.history)
              (x := prevIndex) (by simp [hl]) with ⟨hne, rfl⟩
            exact List.getLast_mem hne
          refine ⟨?_, ?_⟩
          · show prevIndex < len
            have := h2 prevIndex hmem
            omega
          · show ∀ i ∈ s.history.dropLast, i + 1 < len
            exact fun i hi => h2 i (List.mem_of_mem_dropLast hi)

/-- Any action sequence preserves the navigation invariant. -/
theorem runNav_preserves_inv (len : Nat) (actions : List NavAction) :
    ∀ s : NavState, NavInv len s → NavInv len (runNav len s actions) := by
  induction actions with
  | nil => intro s h; simpa [runNav] using h
  | cons a as ih =>
      intro s h
      simpa [runNav] using ih (navStep len s a) (navStep_preserves_inv len s a h)

/-- C10: for a non-empty queue, after any sequence of next/previous actions
starting from the initial state the current position is a valid index;
previous with an empty history is a no-op; and next on (or past) the last
card only opens the summary, leaving the index and history unchanged. -/
theorem c10_navigation_index_safe (len : Nat) (hlen : 0 < len)
    (actions : List NavAction) :
    (runNav len initNavState actions).currentIndex < len ∧
    (∀ s : NavState, s.history = [] → navStep len s .previous = s) ∧
    (∀ s : NavState, len - 1 ≤ s.currentIndex →
      navStep len s .next = { s with showSummary := true }) := by
  refine ⟨(runNav_preserves_inv len actions initNavState
      ⟨by simpa [initNavState] using hlen, by simp [initNavState]⟩).1,
    fun s h => ?_, fun s h => ?_⟩
  · simp [navStep, h]
  · simp [navStep, h]

/-- Witness for C10 at a concrete queue of length 2 and a concrete action
sequence, with a concrete empty-history previous no-op. -/
theorem c10_navigation_witness :
    (runNav 2 initNavState
      [NavAction.next, NavAction.previous, NavAction.next]).currentIndex < 2 ∧
    navStep 2 { currentIndex := 1, history := [], showSummary := false }
        NavAction.previous =
      { currentIndex := 1, history := [], showSummary := false } :=
  ⟨(c10_navigation_index_safe 2 (by decide)
      [NavAction.next, NavAction.previous, NavAction.next]).1,
    (c10_navigation_index_safe 2 (by decide) []).2.1
      { currentIndex := 1, history := [], showSummary := false } rfl⟩

/-! ## C4: idempotence of re-grading with the recorded outcome -/

/-- C4: re-invoking the grading coordinator with the same outcome as the one
currently recorded for that cardId is a complete no-op: the session state —
statistics included — is returned unchanged and no service call is made, so
a re-confirmed card is counted as reviewed exactly once. -/
theorem c4_regrade_same_outcome_noop (s : GradingState) (card : StudyCard)
    (isCorrect reviewServiceConnected primaryWriteOk : Bool)
    (h : mapGet s.gradedCards card.cardId = some isCorrect) :
    handleCardGraded s card isCorrect reviewServiceConnected primaryWriteOk =
      { state := s, primaryCallMade := false } := by
  simp [handleCardGraded, h]

/-- Witness for C4 at a concrete already-graded state. -/
theorem c4_regrade_witness :
    handleCardGraded
        { gradedCards := [("new-1_a", true)], sessionCardResults := [],
          stats :=
            { totalCards := 1, cardsReviewed := 1, correctCount := 1,
              incorrectCount := 0, newCardsStudied := 1,
              reviewCardsStudied := 0 },
          sentToServices := ["new-1_a_true"] }
        { character :=
            { simplified := "a", level := ["new-1"],
              forms := [{ traditional := "a", meanings := ["first"] }] },
          cardId := "new-1_a", isDue := false, isNew := true }
        true true true =
      { state :=
          { gradedCards := [("new-1_a", true)], sessionCardResults := [],
            stats :=
              { totalCards := 1, cardsReviewed := 1, correctCount := 1,
                incorrectCount := 0, newCardsStudied := 1,
                reviewCardsStudied := 0 },
            sentToServices := ["new-1_a_true"] },
        primaryCallMade := false } :=
  c4_regrade_same_outcome_noop _ _ _ _ _ (by decide)

/-! ## C6: silent random fallback -/

/-- The random-path queue always has length `min cardCount filtered.length`
when built over a shuffle (permutation) of the level vocabulary. -/
theorem buildQueueRandom_length (filtered : List Character)
    (characterSet : String) (cardCount : Nat) (shuffled : List Character)
    (hperm : shuffled.Perm filtered) :
    (buildQueueRandom filtered characterSet cardCount shuffled).length =
      min cardCount filtered.length := by
  simp [buildQueueRandom, hperm.length_eq]

/-- C6: whenever the scheduling service is unavailable or the due-item fetch
fails outright, `loadData` produces exactly the random-path queue (the
fallback is a plain queue value, not an error state), whose length is
`min cardCount filtered.length`; with a positive requested count it is empty
only when the level vocabulary itself is empty. -/
theorem c6_random_fallback (reviewServiceConnected useSRS : Bool)
    (filtered : List Character) (level characterSet : String) (cardCount : Nat)
    (dueFetch : DueFetchResult) (shuffledNew shuffledAll : List Character)
    (hperm : shuffledAll.Perm filtered)
    (hfb : reviewServiceConnected = false ∨ dueFetch = DueFetchResult.failed) :
    loadDataQueue reviewServiceConnected useSRS filtered level characterSet
        cardCount dueFetch shuffledNew shuffledAll =
      buildQueueRandom filtered characterSet cardCount shuffledAll ∧
    (loadDataQueue reviewServiceConnected useSRS filtered level characterSet
        cardCount dueFetch shuffledNew shuffledAll).length =
      min cardCount filtered.length ∧
    (1 ≤ cardCount →
      (loadDataQueue reviewServiceConnected useSRS filtered level characterSet
          cardCount dueFetch shuffledNew shuffledAll = [] ↔ filtered = [])) := by
  have hq : loadDataQueue reviewServiceConnected useSRS filtered level
      characterSet cardCount dueFetch shuffledNew shuffledAll =
      buildQueueRandom filtered characterSet cardCount shuffledAll := by
    rcases hfb with h | h
    · simp [loadDataQueue, h]
    · subst h
      unfold loadDataQueue
      split <;> rfl
  refine ⟨hq, ?_, ?_⟩
  · rw [hq]
    exact buildQueueRandom_length filtered characterSet cardCount shuffledAll
      hperm
  · intro hcc
    rw [hq]
    have hlen := buildQueueRandom_length filtered characterSet cardCount
      shuffledAll hperm
    constructor
    · intro hnil
      rw [hnil] at hlen
      simp only [List.length_nil] at hlen
      have : filtered.length = 0 := by omega
      exact List.length_eq_zero.mp this
    · intro hnil
      subst hnil
      simp [buildQueueRandom]

/-- Witness for C6: a concrete two-entity vocabulary with scheduling
unavailable falls back to the random queue of length `min 20 2 = 2`. -/
theorem c6_random_fallback_witness :
    (loadDataQueue false true
        [{ simplified := "a", level := ["new-1"],
           forms := [{ traditional := "a", meanings := ["first"] }] },
         { simplified := "b", level := ["new-1"],
           forms := [{ traditional := "b", meanings := ["second"] }] }]
        "new-1" "simplified" 20 DueFetchResult.failed []
        [{ simplified := "a", level := ["new-1"],
           forms := [{ traditional := "a", meanings := ["first"] }] },
         { simplified := "b", level := ["new-1"],
           forms := [{ traditional := "b", meanings := ["second"] }] }]).length
      = min 20 2 :=
  (c6_random_fallback false true
    [{ simplified := "a", level := ["new-1"],
       forms := [{ traditional := "a", meanings := ["first"] }] },
     { simplified := "b", level := ["new-1"],
       forms := [{ traditional := "b", meanings := ["second"] }] }]
    "new-1" "simplified" 20 DueFetchResult.failed []
    [{ simplified := "a", level := ["new-1"],
       forms := [{ traditional := "a", meanings := ["first"] }] },
     { simplified := "b", level := ["new-1"],
       forms := [{ traditional := "b", meanings := ["second"] }] }]
    (List.Perm.refl _) (Or.inl rfl)).2.1

/-! ## C1: review-service submissions per outcome

The coordinator-level sent-marker machinery below proves that
`handleCardGraded` alone issues at most one successful write per
`(cardId, isCorrect)` key.  The claim itself fails on the code anyway: the
flashcard component submits the same pair on its own before invoking the
coordinator, which the closed evaluation at the end of this section
exhibits. -/

/-- Case analysis of one coordinator step on the sent-marker set: either the
primary write was issued — which requires the `cardId_isCorrect` marker to be
absent — and the marker is present afterwards exactly when the write
succeeded, or no write was issued and the marker set is unchanged. -/
theorem handleCardGraded_sent_spec (s : GradingState) (card : StudyCard)
    (isCorrect reviewServiceConnected primaryWriteOk : Bool) :
    ((handleCardGraded s card isCorrect reviewServiceConnected
        primaryWriteOk).primaryCallMade = true ∧
      s.sentToServices.contains (serviceCallKey card.cardId isCorrect) =
        false ∧
      (handleCardGraded s card isCorrect reviewServiceConnected
          primaryWriteOk).state.sentToServices =
        (if primaryWriteOk then
          s.sentToServices ++ [serviceCallKey card.cardId isCorrect]
        else s.sentToServices)) ∨
    ((handleCardGraded s card isCorrect reviewServiceConnected
        primaryWriteOk).primaryCallMade = false ∧
      (handleCardGraded s card isCorrect reviewServiceConnected
          primaryWriteOk).state.sentToServices = s.sentToServices) := by
  simp only [handleCardGraded]
  by_cases h1 : ((mapGet s.gradedCards card.cardId).isSome &&
      decide (mapGet s.gradedCards card.cardId = some isCorrect)) = true
  · rw [if_pos h1]
    right
    exact ⟨rfl, rfl⟩
  · rw [if_neg h1]
    by_cases h2 : (reviewServiceConnected &&
        !s.sentToServices.contains (serviceCallKey card.cardId isCorrect)) =
        true
    · rw [if_pos h2]
      have hnot : s.sentToServices.contains
          (serviceCallKey card.cardId isCorrect) = false := by
        simp only [Bool.and_eq_true, Bool.not_eq_true'] at h2
        exact h2.2
      by_cases h3 : primaryWriteOk = true
      · rw [if_pos h3, if_pos h3]
        exact Or.inl ⟨rfl, hnot, rfl⟩
      · rw [if_neg h3, if_neg h3]
        exact Or.inl ⟨rfl, hnot, rfl⟩
    · rw [if_neg h2]
      right
      exact ⟨rfl, rfl⟩

/-- Sent-markers are never lost by a coordinator step: a key present before
is present after (a failed write only deletes the key it just added, which
was absent before). -/
theorem handleCardGraded_sent_mono (s : GradingState) (card : StudyCard)
    (isCorrect reviewServiceConnected primaryWriteOk : Bool) (k : String)
    (h : k ∈ s.sentToServices) :
    k ∈ (handleCardGraded s card isCorrect reviewServiceConnected
      primaryWriteOk).state.sentToServices := by
  rcases handleCardGraded_sent_spec s card isCorrect reviewServiceConnected
    primaryWriteOk with ⟨-, -, hs⟩ | ⟨-, hs⟩
  · rw [hs]
    split
    · exact List.mem_append_left _ h
    · exact h
  · rw [hs]
    exact h

/-- Once a key carries a sent-marker, no later invocation ever issues a
successful primary write for it. -/
theorem runGradesTrace_no_resend (events : List GradeEvent) :
    ∀ s : GradingState, ∀ k : String, k ∈ s.sentToServices →
      ((runGradesTrace s events).filter
        (fun p => p.1 = k && p.2)).length = 0 := by
  induction events with
  | nil => intro s k _; simp [runGradesTrace]
  | cons e es ih =>
      intro s k hk
      simp only [runGradesTrace, List.filter_append, List.length_append]
      have htail := ih (handleCardGraded s e.card e.isCorrect
        e.reviewServiceConnected e.primaryWriteOk).state k
        (handleCardGraded_sent_mono s e.card e.isCorrect
          e.reviewServiceConnected e.primaryWriteOk k hk)
      rw [htail]
      rcases handleCardGraded_sent_spec s e.card e.isCorrect
        e.reviewServiceConnected e.primaryWriteOk with
        ⟨hmade, hnotsent, -⟩ | ⟨hmade, -⟩
      · have hkey : serviceCallKey e.card.cardId e.isCorrect ≠ k := by
          intro heq
          rw [heq] at hnotsent
          simp at hnotsent
          exact hnotsent hk
        rw [hmade]
        simp [hkey]
      · rw [hmade]
        simp

/-- Starting without a sent-marker for a key, any run of grading actions
issues at most one successful primary write for it. -/
theorem runGradesTrace_at_most_once (events : List GradeEvent) :
    ∀ s : GradingState, ∀ k : String, k ∉ s.sentToServices →
      ((runGradesTrace s events).filter
        (fun p => p.1 = k && p.2)).length ≤ 1 := by
  induction events with
  | nil => intro s k _; simp [runGradesTrace]
  | cons e es ih =>
      intro s k hk
      simp only [runGradesTrace, List.filter_append, List.length_append]
      rcases handleCardGraded_sent_spec s e.card e.isCorrect
        e.reviewServiceConnected e.primaryWriteOk with
        ⟨hmade, -, hs⟩ | ⟨hmade, hs⟩
      · rw [hmade]
        by_cases hkey : serviceCallKey e.card.cardId e.isCorrect = k ∧
            e.primaryWriteOk = true
        · obtain ⟨hkeq, hok⟩ := hkey
          have hmem : k ∈ (handleCardGraded s e.card e.isCorrect
              e.reviewServiceConnected e.primaryWriteOk).state.sentToServices
              := by
            rw [hs, hok, if_pos rfl, hkeq]
            exact List.mem_append_right _ (List.mem_singleton.mpr rfl)
          have htail := runGradesTrace_no_resend es
            (handleCardGraded s e.card e.isCorrect e.reviewServiceConnected
              e.primaryWriteOk).state k hmem
          rw [htail]
          simp [hkeq, hok]
        · have hnotmem : k ∉ (handleCardGraded s e.card e.isCorrect
              e.reviewServiceConnected e.primaryWriteOk).state.sentToServices
              := by
            rw [hs]
            by_cases hok : e.primaryWriteOk = true
            · rw [if_pos hok]
              intro hmem
              rcases List.mem_append.mp hmem with hmem | hmem
              · exact hk hmem
              · simp only [List.mem_singleton] at hmem
                exact hkey ⟨hmem.symm, hok⟩
            · rw [if_neg hok]
              exact hk
          have htail := ih (handleCardGraded s e.card e.isCorrect
            e.reviewServiceConnected e.primaryWriteOk).state k hnotmem
          have hhead : (List.filter (fun p => p.1 = k && p.2)
              [(serviceCallKey e.card.cardId e.isCorrect,
                e.primaryWriteOk)]).length = 0 := by
            simp only [List.length_eq_zero, List.filter_eq_nil_iff]
            intro p hp
            simp only [List.mem_singleton] at hp
            subst hp
            simp only [Bool.and_eq_true, decide_eq_true_eq, not_and]
            intro hx1 hx2
            exact hkey ⟨hx1, hx2⟩
          simp only [eq_self_iff_true, if_true]
          omega
      · rw [hmade]
        have htail := ih (handleCardGraded s e.card e.isCorrect
          e.reviewServiceConnected e.primaryWriteOk).state k
          (by rw [hs]; exact hk)
        simpa using htail

/-- A successful coordinator write leaves its marker set; a failed one
leaves the marker set unchanged (the key just added is deleted again), so
exactly the failed write remains eligible for retry. -/
theorem handleCardGraded_marker_outcomes :
    (∀ s : GradingState, ∀ card : StudyCard, ∀ isCorrect rc : Bool,
      (handleCardGraded s card isCorrect rc true).primaryCallMade = true →
      serviceCallKey card.cardId isCorrect ∈
        (handleCardGraded s card isCorrect rc true).state.sentToServices) ∧
    (∀ s : GradingState, ∀ card : StudyCard, ∀ isCorrect rc : Bool,
      (handleCardGraded s card isCorrect rc false).state.sentToServices =
        s.sentToServices) := by
  refine ⟨fun s card isCorrect rc hmade => ?_, fun s card isCorrect rc => ?_⟩
  · rcases handleCardGraded_sent_spec s card isCorrect rc true with
      ⟨-, -, hs⟩ | ⟨hnot, -⟩
    · rw [hs, if_pos rfl]
      exact List.mem_append_right _ (List.mem_singleton.mpr rfl)
    · rw [hmade] at hnot
      exact absurd hnot (by simp)
  · rcases handleCardGraded_sent_spec s card isCorrect rc false with
      ⟨-, -, hs⟩ | ⟨-, hs⟩
    · simpa using hs
    · exact hs

/-! ## Map helper lemmas -/

/-- The keys of a modelled `Map`, in insertion order. -/
def keysOf (m : List (String × Bool)) : List String :=
  m.map (fun e => e.1)

/-- The `any` test used by `mapSet` agrees with key membership. -/
theorem any_fst_eq_iff (m : List (String × Bool)) (k : String) :
    m.any (fun e => e.1 = k) = true ↔ k ∈ keysOf m := by
  simp only [List.any_eq_true, decide_eq_true_eq, keysOf, List.mem_map]

/-- A `mapGet` after `mapSet` of the same key returns the written value. -/
theorem mapGet_mapSet_self (m : List (String × Bool)) (k : String) (v : Bool) :
    mapGet (mapSet m k v) k = some v := by
  induction m with
  | nil => simp [mapGet, mapSet, List.find?]
  | cons a as ih =>
      by_cases hak : a.1 = k
      · have hany : (a :: as).any (fun e => e.1 = k) = true := by
          simp [hak]
        simp only [mapSet, hany, if_true, List.map_cons, if_pos hak]
        simp [mapGet, List.find?]
      · have hany : (a :: as).any (fun e => e.1 = k) =
            as.any (fun e => e.1 = k) := by
          simp [hak]
        by_cases has : as.any (fun e => e.1 = k) = true
        · simp only [mapSet, hany, has, if_true, List.map_cons, if_neg hak]
          have ihs : mapGet (as.map (fun e => if e.1 = k then (k, v) else e))
              k = some v := by
            have := ih
            simp only [mapSet, has, if_true] at this
            exact this
          simp only [mapGet, List.find?] at ihs ⊢
          rw [show (decide (a.1 = k)) = false by simp [hak]]
          exact ihs
        · have has' : as.any (fun e => e.1 = k) = false :=
            Bool.not_eq_true _ ▸ (Bool.eq_false_iff.mpr (by simpa using has))
          simp only [mapSet, hany, has, if_false, List.cons_append]
          have ihs : mapGet (as ++ [(k, v)]) k = some v := by
            have := ih
            simp only [mapSet, has, if_false] at this
            exact this
          simp only [mapGet, List.find?] at ihs ⊢
          rw [show (decide (a.1 = k)) = false by simp [hak]]
          exact ihs

/-- `mapGet` misses exactly the keys outside the map. -/
theorem mapGet_eq_none_iff (m : List (String × Bool)) (k : String) :
    mapGet m k = none ↔ k ∉ keysOf m := by
  simp only [mapGet, Option.map_eq_none', List.find?_eq_none, keysOf,
    List.mem_map, decide_eq_true_eq]
  constructor
  · rintro h ⟨e, he, hk⟩
    exact h e he hk
  · intro h e he hk
    exact h ⟨e, he, hk⟩

/-- Setting an existing key leaves the key list unchanged. -/
theorem keysOf_mapSet_mem (m : List (String × Bool)) (k : String) (v : Bool)
    (h : k ∈ keysOf m) : keysOf (mapSet m k v) = keysOf m := by
  simp only [mapSet, (any_fst_eq_iff m k).mpr h, if_true, keysOf,
    List.map_map]
  apply List.map_congr_left
  intro e _
  by_cases he : e.1 = k
  · simp [he]
  · simp [he]

/-- Setting a fresh key appends it to the key list. -/
theorem keysOf_mapSet_not_mem (m : List (String × Bool)) (k : String)
    (v : Bool) (h : k ∉ keysOf m) : keysOf (mapSet m k v) = keysOf m ++ [k]
    := by
  have hany : m.any (fun e => e.1 = k) = false := by
    rcases Bool.eq_false_or_eq_true (m.any (fun e => e.1 = k)) with ht | hf
    · exact absurd ((any_fst_eq_iff m k).mp ht) h
    · exact hf
  simp [mapSet, hany, keysOf]

/-! ## C5: primary write failure surfaces an error, keeps local state -/

/-- C5: a failed primary grading write never erases local grading state.
(1) At the flashcard level, a thrown `gradeCard` surfaces the recoverable
error message in `gradingError` and leaves the session state untouched (no
rollback of anything already recorded).  (2) At the session level, the state
after a failed primary write carries exactly the same statistics, recorded
outcomes and session results as after a successful one — the already-applied
statistics delta and the recorded `(cardId, isCorrect)` outcome are kept;
(3) in particular the graded outcome remains recorded despite the failure. -/
theorem c5_primary_failure_keeps_local_state :
    (∀ fc : FlashcardState, ∀ s : GradingState, ∀ card : StudyCard,
      ∀ isCorrect rc sok : Bool, fc.isGrading = false →
      fc.lastGradingResult ≠ some isCorrect →
      (handleGrade fc s card isCorrect false rc sok).fc.gradingError =
        some gradeCardFailureMessage ∧
      (handleGrade fc s card isCorrect false rc sok).session = s) ∧
    (∀ s : GradingState, ∀ card : StudyCard, ∀ isCorrect rc : Bool,
      (handleCardGraded s card isCorrect rc false).state.stats =
        (handleCardGraded s card isCorrect rc true).state.stats ∧
      (handleCardGraded s card isCorrect rc false).state.gradedCards =
        (handleCardGraded s card isCorrect rc true).state.gradedCards ∧
      (handleCardGraded s card isCorrect rc false).state.sessionCardResults =
        (handleCardGraded s card isCorrect rc true).state.sessionCardResults)
    ∧
    (∀ s : GradingState, ∀ card : StudyCard, ∀ isCorrect rc : Bool,
      mapGet s.gradedCards card.cardId ≠ some isCorrect →
      mapGet (handleCardGraded s card isCorrect rc
        false).state.gradedCards card.cardId = some isCorrect) := by
  refine ⟨fun fc s card isCorrect rc sok h1 h2 => ?_,
    fun s card isCorrect rc => ?_, fun s card isCorrect rc h => ?_⟩
  · simp only [handleGrade]
    rw [if_neg (by simp [h1]), if_neg h2, if_neg Bool.false_ne_true]
    exact ⟨rfl, rfl⟩
  · simp only [handleCardGraded]
    by_cases h1 : ((mapGet s.gradedCards card.cardId).isSome &&
        decide (mapGet s.gradedCards card.cardId = some isCorrect)) = true
    · rw [if_pos h1, if_pos h1]
      exact ⟨rfl, rfl, rfl⟩
    · rw [if_neg h1, if_neg h1]
      by_cases h2 : (rc && !s.sentToServices.contains
          (serviceCallKey card.cardId isCorrect)) = true
      · rw [if_pos h2, if_pos h2, if_neg Bool.false_ne_true,
          if_pos True.intro]
        exact ⟨rfl, rfl, rfl⟩
      · rw [if_neg h2, if_neg h2]
        exact ⟨rfl, rfl, rfl⟩
  · have h1 : ((mapGet s.gradedCards card.cardId).isSome &&
        decide (mapGet s.gradedCards card.cardId = some isCorrect)) = false
        := by
      simp [h]
    simp only [handleCardGraded]
    rw [if_neg (by simp [h1])]
    by_cases h2 : (rc && !s.sentToServices.contains
        (serviceCallKey card.cardId isCorrect)) = true
    · rw [if_pos h2, if_neg Bool.false_ne_true]
      exact mapGet_mapSet_self _ _ _
    · rw [if_neg h2]
      exact mapGet_mapSet_self _ _ _

/-! ## C3: the statistics invariant -/

/-- A grade equal to the recorded outcome short-circuits (lines 526-533). -/
theorem handleCardGraded_noop (s : GradingState) (card : StudyCard)
    (isCorrect rc ok : Bool)
    (h : mapGet s.gradedCards card.cardId = some isCorrect) :
    handleCardGraded s card isCorrect rc ok =
      { state := s, primaryCallMade := false } := by
  simp [handleCardGraded, h]

/-- In the non-short-circuit case the step applies exactly the map update
and the statistics delta of the source, independent of connectivity and of
the write outcome. -/
theorem handleCardGraded_local_spec (s : GradingState) (card : StudyCard)
    (isCorrect rc ok : Bool)
    (h : mapGet s.gradedCards card.cardId ≠ some isCorrect) :
    (handleCardGraded s card isCorrect rc ok).state.gradedCards =
      mapSet s.gradedCards card.cardId isCorrect ∧
    (handleCardGraded s card isCorrect rc ok).state.sessionCardResults =
      resultsUpsert s.sessionCardResults card.cardId isCorrect ∧
    (handleCardGraded s card isCorrect rc ok).state.stats =
      (if (mapGet s.gradedCards card.cardId).isSome = true then
        changedGradeStats s.stats isCorrect
      else firstGradeStats s.stats card isCorrect) := by
  have h1 : ((mapGet s.gradedCards card.cardId).isSome &&
      decide (mapGet s.gradedCards card.cardId = some isCorrect)) = false := by
    simp [h]
  have hstats : (if (!(mapGet s.gradedCards card.cardId).isSome) = true then
      firstGradeStats s.stats card isCorrect
      else changedGradeStats s.stats isCorrect) =
      (if (mapGet s.gradedCards card.cardId).isSome = true then
        changedGradeStats s.stats isCorrect
      else firstGradeStats s.stats card isCorrect) := by
    by_cases hwg : (mapGet s.gradedCards card.cardId).isSome = true
    · rw [if_pos hwg, if_neg (by simp [hwg])]
    · have hf : (mapGet s.gradedCards card.cardId).isSome = false := by
        simpa using hwg
      rw [if_neg hwg, if_pos (by simp [hf])]
  simp only [handleCardGraded]
  rw [if_neg (by simp [h1])]
  by_cases h2 : (rc && !s.sentToServices.contains
      (serviceCallKey card.cardId isCorrect)) = true
  · rw [if_pos h2]
    by_cases h3 : ok = true
    · rw [if_pos h3]
      exact ⟨rfl, rfl, hstats⟩
    · rw [if_neg h3]
      exact ⟨rfl, rfl, hstats⟩
  · rw [if_neg h2]
    exact ⟨rfl, rfl, hstats⟩

/-- The statistics invariant of the claim, strengthened with the bookkeeping
needed for induction: the per-key outcome map has distinct keys, all drawn
from the queue, and bounds `cardsReviewed`. -/
def StatsInv (queue : List StudyCard) (s : GradingState) : Prop :=
  s.stats.correctCount + s.stats.incorrectCount = s.stats.cardsReviewed ∧
  s.stats.cardsReviewed ≤ ((keysOf s.gradedCards).length : Int) ∧
  (keysOf s.gradedCards).Nodup ∧
  (∀ k ∈ keysOf s.gradedCards, k ∈ queue.map (fun c => c.cardId)) ∧
  s.stats.totalCards = queue.length

/-- One coordinator step on a queue card preserves the invariant. -/
theorem handleCardGraded_preserves_statsInv (queue : List StudyCard)
    (s : GradingState) (card : StudyCard) (isCorrect rc ok : Bool)
    (hcard : card ∈ queue) (h : StatsInv queue s) :
    StatsInv queue (handleCardGraded s card isCorrect rc ok).state := by
  obtain ⟨h1, h2, h3, h4, h5⟩ := h
  by_cases hnoop : mapGet s.gradedCards card.cardId = some isCorrect
  · rw [handleCardGraded_noop s card isCorrect rc ok hnoop]
    exact ⟨h1, h2, h3, h4, h5⟩
  · obtain ⟨hg, hr, hst⟩ :=
      handleCardGraded_local_spec s card isCorrect rc ok hnoop
    by_cases hwg : (mapGet s.gradedCards card.cardId).isSome = true
    · have hmem : card.cardId ∈ keysOf s.gradedCards := by
        by_contra hx
        rw [(mapGet_eq_none_iff s.gradedCards card.cardId).mpr hx] at hwg
        simp at hwg
      have hkeys : keysOf
          (handleCardGraded s card isCorrect rc ok).state.gradedCards =
          keysOf s.gradedCards := by
        rw [hg]
        exact keysOf_mapSet_mem s.gradedCards card.cardId isCorrect hmem
      have hstats : (handleCardGraded s card isCorrect rc ok).state.stats =
          changedGradeStats s.stats isCorrect := by
        rw [hst, if_pos hwg]
      refine ⟨?_, ?_, ?_, ?_, ?_⟩
      · rw [hstats]
        cases isCorrect <;> simp [changedGradeStats] <;> omega
      · rw [hstats, hkeys]
        simpa [changedGradeStats] using h2
      · rw [hkeys]
        exact h3
      · rw [hkeys]
        exact h4
      · rw [hstats]
        simpa [changedGradeStats] using h5
    · have hnone : mapGet s.gradedCards card.cardId = none := by
        rcases ho : mapGet s.gradedCards card.cardId with _ | b
        · rfl
        · rw [ho] at hwg
          simp at hwg
      have hnotmem : card.cardId ∉ keysOf s.gradedCards :=
        (mapGet_eq_none_iff s.gradedCards card.cardId).mp hnone
      have hkeys : keysOf
          (handleCardGraded s card isCorrect rc ok).state.gradedCards =
          keysOf s.gradedCards ++ [card.cardId] := by
        rw [hg]
        exact keysOf_mapSet_not_mem s.gradedCards card.cardId isCorrect
          hnotmem
      have hstats : (handleCardGraded s card isCorrect rc ok).state.stats =
          firstGradeStats s.stats card isCorrect := by
        rw [hst, if_neg hwg]
      refine ⟨?_, ?_, ?_, ?_, ?_⟩
      · rw [hstats]
        cases isCorrect <;> simp [firstGradeStats] <;> omega
      · rw [hstats, hkeys]
        simp only [firstGradeStats, List.length_append, List.length_singleton]
        push_cast
        omega
      · rw [hkeys]
        refine List.Nodup.append h3 (List.nodup_singleton _) ?_
        intro a ha hb
        simp only [List.mem_singleton] at hb
        subst hb
        exact hnotmem ha
      · rw [hkeys]
        intro k hk
        rcases List.mem_append.mp hk with hk | hk
        · exact h4 k hk
        · simp only [List.mem_singleton] at hk
          subst hk
          exact List.mem_map_of_mem _ hcard
      · rw [hstats]
        simpa [firstGradeStats] using h5

/-- A run of grading actions on queue cards preserves the invariant. -/
theorem runGrades_preserves_statsInv (queue : List StudyCard)
    (events : List GradeEvent) :
    ∀ s : GradingState, StatsInv queue s → (∀ e ∈ events, e.card ∈ queue) →
      StatsInv queue (runGrades s events) := by
  induction events with
  | nil => intro s h _; simpa [runGrades] using h
  | cons e es ih =>
      intro s h hev
      have hstep := handleCardGraded_preserves_statsInv queue s e.card
        e.isCorrect e.reviewServiceConnected e.primaryWriteOk
        (hev e (List.mem_cons_self e es)) h
      have : runGrades s (e :: es) = runGrades (handleCardGraded s e.card
          e.isCorrect e.reviewServiceConnected e.primaryWriteOk).state es :=
        rfl
      rw [this]
      exact ih _ hstep (fun x hx => hev x (List.mem_cons_of_mem e hx))

/-- Each pre-population iteration either keeps the map or writes the card's
own id. -/
theorem prevGradedStep_cases (rc : Bool)
    (progressOf : String → Option (Nat × Nat)) (m : List (String × Bool))
    (sc : StudyCard) :
    prevGradedStep rc progressOf m sc = m ∨
    ∃ v : Bool, prevGradedStep rc progressOf m sc = mapSet m sc.cardId v := by
  unfold prevGradedStep
  by_cases hcond : (rc && !sc.isNew) = true
  · rw [if_pos hcond]
    rcases progressOf sc.cardId with _ | p
    · exact Or.inl rfl
    · by_cases hp : 0 < p.1
      · exact Or.inr ⟨_, if_pos hp⟩
      · exact Or.inl (if_neg hp)
  · exact Or.inl (if_neg hcond)

/-- The pre-population of `gradedCards` from review history only records
distinct queue cardIds. -/
theorem previouslyGradedMap_keys (queue : List StudyCard) (rc : Bool)
    (progressOf : String → Option (Nat × Nat)) :
    (keysOf (previouslyGradedMap queue rc progressOf)).Nodup ∧
    (∀ k ∈ keysOf (previouslyGradedMap queue rc progressOf),
      k ∈ queue.map (fun c => c.cardId)) := by
  have main : ∀ (l : List StudyCard) (m : List (String × Bool)),
      (∀ sc ∈ l, sc ∈ queue) →
      (keysOf m).Nodup →
      (∀ k ∈ keysOf m, k ∈ queue.map (fun c => c.cardId)) →
      (keysOf (l.foldl (prevGradedStep rc progressOf) m)).Nodup ∧
      (∀ k ∈ keysOf (l.foldl (prevGradedStep rc progressOf) m),
        k ∈ queue.map (fun c => c.cardId)) := by
    intro l
    induction l with
    | nil => intro m _ hnd hsub; exact ⟨hnd, hsub⟩
    | cons sc l ih =>
        intro m hl hnd hsub
        simp only [List.foldl_cons]
        have hkeys : (keysOf (prevGradedStep rc progressOf m sc)).Nodup ∧
            (∀ k ∈ keysOf (prevGradedStep rc progressOf m sc),
              k ∈ queue.map (fun c => c.cardId)) := by
          rcases prevGradedStep_cases rc progressOf m sc with hstep | ⟨v, hstep⟩
          · rw [hstep]
            exact ⟨hnd, hsub⟩
          · rw [hstep]
            by_cases hmem : sc.cardId ∈ keysOf m
            · rw [keysOf_mapSet_mem m sc.cardId v hmem]
              exact ⟨hnd, hsub⟩
            · rw [keysOf_mapSet_not_mem m sc.cardId v hmem]
              constructor
              · refine List.Nodup.append hnd (List.nodup_singleton _) ?_
                intro a ha hb
                simp only [List.mem_singleton] at hb
                subst hb
                exact hmem ha
              · intro k hk
                rcases List.mem_append.mp hk with hk | hk
                · exact hsub k hk
                · simp only [List.mem_singleton] at hk
                  subst hk
                  exact List.mem_map_of_mem _ (hl sc (List.mem_cons_self _ _))
        exact ih _ (fun x hx => hl x (List.mem_cons_of_mem sc hx)) hkeys.1
          hkeys.2
  exact main queue [] (fun sc h => h) (by simp [keysOf]) (by simp [keysOf])

/-- The freshly mounted session state satisfies the invariant. -/
theorem initState_statsInv (queue : List StudyCard) (rc : Bool)
    (progressOf : String → Option (Nat × Nat)) :
    StatsInv queue
      (initState queue (previouslyGradedMap queue rc progressOf)) := by
  obtain ⟨hnd, hsub⟩ := previouslyGradedMap_keys queue rc progressOf
  exact ⟨by simp [initState], by simp [initState], hnd, hsub,
    by simp [initState]⟩

/-- A list of distinct keys drawn from another list is no longer than it. -/
theorem nodup_subset_length_le (keys ids : List String) (hnd : keys.Nodup)
    (hsub : ∀ k ∈ keys, k ∈ ids) : keys.length ≤ ids.length := by
  calc keys.length = keys.toFinset.card :=
        (List.toFinset_card_of_nodup hnd).symm
    _ ≤ ids.toFinset.card := by
        apply Finset.card_le_card
        intro a ha
        rw [List.mem_toFinset] at ha ⊢
        exact hsub a ha
    _ ≤ ids.length := ids.toFinset_card_le

/-- C3: after pre-populating `gradedCards` from prior review history and
applying any sequence of grading actions on the session's cards, the
statistics satisfy `correctCount + incorrectCount = cardsReviewed` and
`cardsReviewed ≤ totalCards`. -/
theorem c3_stats_invariant_holds (queue : List StudyCard) (rc : Bool)
    (progressOf : String → Option (Nat × Nat)) (events : List GradeEvent)
    (hev : ∀ e ∈ events, e.card ∈ queue) :
    (runGrades (initState queue (previouslyGradedMap queue rc progressOf))
        events).stats.correctCount +
      (runGrades (initState queue (previouslyGradedMap queue rc progressOf))
        events).stats.incorrectCount =
      (runGrades (initState queue (previouslyGradedMap queue rc progressOf))
        events).stats.cardsReviewed ∧
    (runGrades (initState queue (previouslyGradedMap queue rc progressOf))
        events).stats.cardsReviewed ≤
      ((runGrades (initState queue (previouslyGradedMap queue rc progressOf))
        events).stats.totalCards : Int) := by
  obtain ⟨h1, h2, h3, h4, h5⟩ := runGrades_preserves_statsInv queue events
    (initState queue (previouslyGradedMap queue rc progressOf))
    (initState_statsInv queue rc progressOf) hev
  refine ⟨h1, ?_⟩
  have hlen := nodup_subset_length_le _ _ h3 h4
  rw [h5]
  have hqlen : (queue.map (fun c => c.cardId)).length = queue.length :=
    List.length_map _ _
  rw [hqlen] at hlen
  calc (runGrades (initState queue (previouslyGradedMap queue rc progressOf))
        events).stats.cardsReviewed
      ≤ ((keysOf (runGrades (initState queue
          (previouslyGradedMap queue rc progressOf))
          events).gradedCards).length : Int) := h2
    _ ≤ (queue.length : Int) := by exact_mod_cast hlen

/-- Witness for C3 at a concrete one-card session graded twice with opposite
answers (the second write failing). -/
theorem c3_stats_invariant_witness :
    (runGrades sampleInitState
        [sampleEventPass, sampleEventFail]).stats.correctCount +
      (runGrades sampleInitState
        [sampleEventPass, sampleEventFail]).stats.incorrectCount =
      (runGrades sampleInitState
        [sampleEventPass, sampleEventFail]).stats.cardsReviewed :=
  (c3_stats_invariant_holds [sampleCard] true (fun _ => none)
    [sampleEventPass, sampleEventFail] (by decide)).1

/-- C1: the exactly-once submission contract fails on the code itself.
Grading a fresh card once, with the review service connected and both
writes succeeding, submits the identical `(cardId, isCorrect)` grading
event to the review service twice: once from `Flashcard.handleGrade`
(Flashcard.tsx line 165) and once from `handleCardGraded`
(FlashcardSession.tsx line 574) — the `gradedCardsInServices` sent-marker
only deduplicates coordinator invocations, never the flashcard-level write
that precedes them.  This evaluation of the combined flow at that concrete
input exhibits the duplicate submission the claim (and the code's own
"prevent double calls to services" comment, line 568) rules out. -/
theorem c1_double_submission :
    handleGradeSubmissions sampleFlashcardState sampleInitState sampleCard
        true true true true =
      [(sampleCard.cardId, true), (sampleCard.cardId, true)] ∧
    (handleGradeSubmissions sampleFlashcardState sampleInitState sampleCard
        true true true true).length = 2 := by
  constructor
  · decide
  · decide

/-- Witness for C5: at a concrete state a failed flashcard-level write
surfaces the error message, and a concrete failed session-level write still
records the outcome. -/
theorem c5_primary_failure_witness :
    (handleGrade sampleFlashcardState sampleInitState sampleCard true false
        true true).fc.gradingError = some gradeCardFailureMessage ∧
    mapGet (handleCardGraded sampleInitState sampleCard true true
        false).state.gradedCards sampleCard.cardId = some true :=
  ⟨(c5_primary_failure_keeps_local_state.1 sampleFlashcardState
      sampleInitState sampleCard true true true rfl (by decide)).1,
    c5_primary_failure_keeps_local_state.2.2 sampleInitState sampleCard true
      true (by decide)⟩

/-! ## C2: queue length and duplicate identities -/

/-- The identity of a wrapped new card is its generated id. -/
theorem newStudyCard_cardId (characterSet : String) (c : Character) :
    (newStudyCard characterSet c).cardId = generateCardId c characterSet :=
  rfl

/-- The identities of the random-path queue. -/
theorem buildQueueRandom_ids (filtered : List Character)
    (characterSet : String) (cardCount : Nat) (shuffled : List Character) :
    (buildQueueRandom filtered characterSet cardCount shuffled).map
        (fun sc => sc.cardId) =
      (shuffled.take (min cardCount filtered.length)).map
        (fun c => generateCardId c characterSet) := by
  simp only [buildQueueRandom, List.map_map]
  rfl

/-- The identities of the SRS-path queue. -/
theorem buildQueueSRS_ids (filtered : List Character)
    (dueCards : List DueCard) (level characterSet : String) (cardCount : Nat)
    (shuffledNew : List Character) :
    (buildQueueSRS filtered dueCards level characterSet cardCount
        shuffledNew).map (fun sc => sc.cardId) =
      (dueStudyCards filtered dueCards level).map (fun sc => sc.cardId) ++
        (shuffledNew.take (cardCount -
          (dueStudyCards filtered dueCards level).length)).map
          (fun c => generateCardId c characterSet) := by
  simp only [buildQueueSRS, List.map_append, List.map_map]
  rfl

/-- Generated ids stay distinct on a taken prefix of a shuffled subpool. -/
theorem gen_ids_nodup_take (filtered pool shuffled : List Character)
    (characterSet : String) (n : Nat) (hpool : pool.Sublist filtered)
    (hperm : shuffled.Perm pool)
    (hnd : (filtered.map (fun c => generateCardId c characterSet)).Nodup) :
    ((shuffled.take n).map
      (fun c => generateCardId c characterSet)).Nodup := by
  have h1 : (pool.map (fun c => generateCardId c characterSet)).Nodup :=
    (hpool.map _).nodup hnd
  have h2 : (shuffled.map (fun c => generateCardId c characterSet)).Nodup :=
    ((hperm.map _).nodup_iff).mpr h1
  exact ((List.take_sublist n shuffled).map _).nodup h2

/-- C2 counterexample: with a two-entry vocabulary, both entries due and a
requested count of 1, the SRS-path queue keeps all due cards and has length
2 ≠ min 1 2 = 1 — the due-card portion is never truncated to the requested
count.  (The eligible new-entity pool is empty here, so the empty shuffle
argument is a legitimate permutation of it.) -/
theorem c2_counterexample :
    newCharactersFor sampleVocabulary
        (dueStudyCards sampleVocabulary sampleDueCards "new-1") "simplified"
      = [] ∧
    (buildQueueSRS sampleVocabulary sampleDueCards "new-1" "simplified" 1
        []).length ≠ min 1 sampleVocabulary.length := by
  constructor
  · decide
  · decide

/-- C2 amended: the composed queue never pairs a new card with a due card's
identity, and its length follows the code's actual formula.  Random path
(scheduling unavailable): length is `min cardCount filtered.length`, and if
the level's generated ids are distinct the queue ids are distinct.  SRS
path: every resolved due card is kept — even beyond `cardCount` — and the
length is `dueCount + min (cardCount - dueCount) newPoolSize`; when the due
list carries distinct identities and the level's generated ids are
distinct, the queue ids are distinct. -/
theorem c2_amended_queue_shape :
    (∀ (filtered : List Character) (characterSet : String) (cardCount : Nat)
        (shuffled : List Character), shuffled.Perm filtered →
      (buildQueueRandom filtered characterSet cardCount shuffled).length =
        min cardCount filtered.length ∧
      ((filtered.map (fun c => generateCardId c characterSet)).Nodup →
        ((buildQueueRandom filtered characterSet cardCount shuffled).map
          (fun sc => sc.cardId)).Nodup)) ∧
    (∀ (filtered : List Character) (dueCards : List DueCard)
        (level characterSet : String) (cardCount : Nat)
        (shuffledNew : List Character),
      shuffledNew.Perm (newCharactersFor filtered
        (dueStudyCards filtered dueCards level) characterSet) →
      (buildQueueSRS filtered dueCards level characterSet cardCount
          shuffledNew).length =
        (dueStudyCards filtered dueCards level).length +
          min (cardCount - (dueStudyCards filtered dueCards level).length)
            (newCharactersFor filtered
              (dueStudyCards filtered dueCards level) characterSet).length ∧
      (((dueStudyCards filtered dueCards level).map
          (fun sc => sc.cardId)).Nodup →
        (filtered.map (fun c => generateCardId c characterSet)).Nodup →
        ((buildQueueSRS filtered dueCards level characterSet cardCount
          shuffledNew).map (fun sc => sc.cardId)).Nodup)) := by
  constructor
  · intro filtered characterSet cardCount shuffled hperm
    refine ⟨buildQueueRandom_length filtered characterSet cardCount shuffled
      hperm, fun hnd => ?_⟩
    rw [buildQueueRandom_ids]
    exact gen_ids_nodup_take filtered filtered shuffled characterSet _
      (List.Sublist.refl filtered) hperm hnd
  · intro filtered dueCards level characterSet cardCount shuffledNew hperm
    constructor
    · simp [buildQueueSRS, hperm.length_eq]
    · intro hdue hnd
      rw [buildQueueSRS_ids]
      refine List.Nodup.append hdue ?_ ?_
      · exact gen_ids_nodup_take filtered
          (newCharactersFor filtered (dueStudyCards filtered dueCards level)
            characterSet)
          shuffledNew characterSet _
          (List.filter_sublist filtered) hperm hnd
      · intro a ha hb
        simp only [List.mem_map] at hb
        obtain ⟨c, hc, rfl⟩ := hb
        have hcpool : c ∈ newCharactersFor filtered
            (dueStudyCards filtered dueCards level) characterSet :=
          hperm.subset (List.take_subset _ _ hc)
        have hpred := (List.mem_filter.mp hcpool).2
        simp at hpred
        obtain ⟨sc, hsc, heq⟩ := List.mem_map.mp ha
        exact hpred sc hsc heq

/-- Witness for C2 amended: at a concrete vocabulary with one due card and a
requested count of 2, the SRS queue has length `1 + min 1 1 = 2` and
distinct identities; the random path at the same vocabulary has length
`min 2 2`. -/
theorem c2_amended_witness :
    (buildQueueSRS sampleVocabulary sampleDueCardsOne "new-1" "simplified" 2
        [sampleCharacterB]).length =
      (dueStudyCards sampleVocabulary sampleDueCardsOne "new-1").length +
        min (2 - (dueStudyCards sampleVocabulary sampleDueCardsOne
            "new-1").length)
          (newCharactersFor sampleVocabulary
            (dueStudyCards sampleVocabulary sampleDueCardsOne "new-1")
            "simplified").length ∧
    ((buildQueueSRS sampleVocabulary sampleDueCardsOne "new-1" "simplified" 2
        [sampleCharacterB]).map (fun sc => sc.cardId)).Nodup ∧
    (buildQueueRandom sampleVocabulary "simplified" 2
        sampleVocabulary).length = min 2 sampleVocabulary.length := by
  have hperm : ([sampleCharacterB]).Perm (newCharactersFor sampleVocabulary
      (dueStudyCards sampleVocabulary sampleDueCardsOne "new-1")
      "simplified") := by
    rw [show newCharactersFor sampleVocabulary
      (dueStudyCards sampleVocabulary sampleDueCardsOne "new-1") "simplified"
      = [sampleCharacterB] by decide]
  have hsrs := c2_amended_queue_shape.2 sampleVocabulary sampleDueCardsOne
    "new-1" "simplified" 2 [sampleCharacterB] hperm
  exact ⟨hsrs.1, hsrs.2 (by decide) (by decide),
    (c2_amended_queue_shape.1 sampleVocabulary "simplified" 2
      sampleVocabulary (List.Perm.refl _)).1⟩

end HskFlashcards
